import Mathlib

/-!
Verification of the miniray rendering core (`src/camera.h`, the
multithreaded `camera` class) against its natural-language specification.

Shallow embedding conventions:
* C++ `double` is modelled as `ℝ` (exact real arithmetic; the claims
  under study are algebraic, not about rounding).  In the real-number
  model division by zero yields `0`; it stands in for the IEEE NaN that
  the C++ code would produce at the same spot.
* C++ `int` is modelled as `ℤ`; C++ integer division truncates toward
  zero, which is `Int.tdiv` (Lean's `/` on `ℤ` is Euclidean division
  and agrees with `Int.tdiv` on nonnegative operands).
* `std::vector<T>` is modelled as `List T`, indexed reads as `getD`
  (in-range reads make the default irrelevant) and indexed writes as
  `List.set`.
* Randomness (`random_double`, defocus-disk sampling) is passed in as
  explicit arguments or as a sampling oracle, since the random source
  is external to `camera.h`.
* The scene (`hittable`) and the material `scatter` capability are
  external collaborators declared only at their interface; they are
  modelled as functions per the interface contracts of the spec.
* Worker threads write pairwise disjoint framebuffer slots and distinct
  progress slots (the row-partition theorem below), so every thread
  interleaving produces the same final state; the `render` model
  composes the workers sequentially in thread-index order, which is the
  canonical linearization of that race-free execution.
-/

namespace Miniray

/-- C++ `int` division (`Int.tdiv` truncates toward zero exactly as C++
`/` on `int` does). -/
def cppDiv (a b : ℤ) : ℤ := Int.tdiv a b

/-- C++ `int` remainder (truncating, as C++ `%` on `int`). -/
def cppMod (a b : ℤ) : ℤ := Int.tmod a b

/-! ## Row partitioning of the render scheduler

From `render` (camera.h):
```
for (int i = 0; i < max_threads; i++) {
    int offset = image_height / max_threads;
    int minRow = i * offset;
    int maxRow = i < max_threads - 1 ? minRow + offset : image_height;
    threads.push_back(std::thread(&camera::render_thread, this, std::ref(world), i, minRow, maxRow));
}
```
`H` is `image_height`, `T` is `max_threads` (after the coercion in
`initialize`, so `T ≥ 1` whenever `render` reaches this loop). -/

/-- Rows per worker: `image_height / max_threads` with C++ integer
division. -/
def rowOffset (H T : ℤ) : ℤ := cppDiv H T

/-- First row assigned to worker `i`. -/
def minRow (H T i : ℤ) : ℤ := i * rowOffset H T

/-- One past the last row assigned to worker `i`: the last worker
absorbs the remainder up to `image_height`. -/
def maxRow (H T i : ℤ) : ℤ :=
  if i < T - 1 then minRow H T i + rowOffset H T else H

/-- Worker `i` renders row `j` iff `minRow ≤ j < maxRow`
(`render_thread` loops `for (int j = minRow; j < maxRow; j++)`). -/
def ownsRow (H T i j : ℤ) : Prop := minRow H T i ≤ j ∧ j < maxRow H T i

instance (H T i j : ℤ) : Decidable (ownsRow H T i j) := by
  unfold ownsRow; infer_instance

/-- Worker `i` writes framebuffer slot `p` iff `p = j*W + c` for a row
`j` it owns and a column `0 ≤ c < W`
(`render_thread` writes `image[j * image_width + i]`). -/
def writesSlot (W H T i p : ℤ) : Prop :=
  ∃ j c, ownsRow H T i j ∧ 0 ≤ c ∧ c < W ∧ p = j * W + c

/-! ## Bitmap header encoding (`write_image`)

From `write_image` (camera.h):
```
int file_size = 54 + 3 * image_width * image_height;
...
bmp_header[2] = (unsigned char)(file_size);
bmp_header[3] = (unsigned char)(file_size >> 8);
bmp_header[4] = (unsigned char)(file_size >> 16);
bmp_header[5] = (unsigned char)(file_size >> 24);
...
for (int i = 0; i < image_height; i++) {
    fwrite(&image[0] + ..., 3, image_width, f);
    fwrite(bmp_pad, 1, (4 - (image_width * 3) % 4) % 4, f);
}
```
-/

/-- `54 + 3 * image_width * image_height`, the value stored in the
4-byte file-size field of the bitmap file header. -/
def file_size (W H : ℤ) : ℤ := 54 + 3 * W * H

/-- C++ `>>` on a nonnegative `int` (arithmetic shift right = division
by a power of two). -/
def shr (a : ℤ) (n : ℕ) : ℤ := a / 2 ^ n

/-- C++ `(unsigned char)` cast of a nonnegative `int`: low 8 bits. -/
def toByte (a : ℤ) : ℤ := a % 256

/-- The four bytes `bmp_header[2..5]` written by `write_image`. -/
def headerSizeBytes (W H : ℤ) : ℤ × ℤ × ℤ × ℤ :=
  (toByte (file_size W H), toByte (shr (file_size W H) 8),
   toByte (shr (file_size W H) 16), toByte (shr (file_size W H) 24))

/-- The integer a little-endian reader decodes from the 4-byte
file-size field. -/
def decodedFileSize (W H : ℤ) : ℤ :=
  (headerSizeBytes W H).1 + 256 * (headerSizeBytes W H).2.1 +
    65536 * (headerSizeBytes W H).2.2.1 + 16777216 * (headerSizeBytes W H).2.2.2

/-- Zero padding appended after each pixel row:
`(4 - (image_width * 3) % 4) % 4`. -/
def rowPad (W : ℤ) : ℤ := cppMod (4 - cppMod (W * 3) 4) 4

/-- Total bytes `write_image` actually writes: 14-byte file header,
40-byte info header, and per row `3 * W` pixel bytes plus padding. -/
def bytesWritten (W H : ℤ) : ℤ := 14 + 40 + H * (3 * W + rowPad W)

/-! ## Vectors, colors, rays

`vector3d` / `point3d` / `color` live in headers outside `src/`.
Modelled from the spec: "vector/point arithmetic primitives" are
external collaborators; `color` is a "triple of floating-point channel
intensities" supporting "addition and scalar/elementwise multiplication
(used for attenuation chaining)". -/

/-- A triple of doubles: `vector3d`, `point3d` and `color` alike. -/
structure Vec3 where
  x : ℝ
  y : ℝ
  z : ℝ

instance : Add Vec3 := ⟨fun a b => ⟨a.x + b.x, a.y + b.y, a.z + b.z⟩⟩

instance : Sub Vec3 := ⟨fun a b => ⟨a.x - b.x, a.y - b.y, a.z - b.z⟩⟩

instance : Neg Vec3 := ⟨fun a => ⟨-a.x, -a.y, -a.z⟩⟩

/-- Scalar multiplication `double * vector3d`. -/
instance : SMul ℝ Vec3 := ⟨fun s a => ⟨s * a.x, s * a.y, s * a.z⟩⟩

/-- Elementwise product `color * color` (attenuation chaining). -/
instance : Mul Vec3 := ⟨fun a b => ⟨a.x * b.x, a.y * b.y, a.z * b.z⟩⟩

noncomputable section

/-- `vector3d / double`. -/
instance : HDiv Vec3 ℝ Vec3 := ⟨fun a s => ⟨a.x / s, a.y / s, a.z / s⟩⟩

/-- Euclidean length `sqrt(x*x + y*y + z*z)`.  Modelled from the spec:
the vector primitives are external to `src/`. -/
def Vec3.length (a : Vec3) : ℝ := Real.sqrt (a.x * a.x + a.y * a.y + a.z * a.z)

/-- `unit_vector(v) = v / v.length()`.  Modelled from the spec
("normalized ray direction"); in the real model `v / 0 = 0` stands in
for the NaN the C++ code produces on a zero-length vector. -/
def unit_vector (a : Vec3) : Vec3 := a / a.length

/-- Cross product.  Modelled from the spec ("the right vector `u` as
the normalized cross product of up and `w`"). -/
def cross (a b : Vec3) : Vec3 :=
  ⟨a.y * b.z - a.z * b.y, a.z * b.x - a.x * b.z, a.x * b.y - a.y * b.x⟩

/-- A ray: origin point plus (unnormalized) direction vector. -/
structure ray where
  origin : Vec3
  direction : Vec3

/-- A hit record: hit point, surface normal, parametric distance, and
the surface's material capability.  The material's
`scatter(r_in, rec, attenuation, scattered)` is modelled per the spec
interface `scatter(incomingRay, hitRecord) -> optional
(attenuationColor, outgoingRay)`; the hit record it closes over is this
record itself. -/
structure hit_record where
  p : Vec3
  normal : Vec3
  t : ℝ
  scatter : ray → Option (Vec3 × ray)

/-- The scene interface: per the spec,
`test(ray, validIntervalLow, validIntervalHigh) -> optional HitRecord`.
`ray_color` always calls it with the fixed interval
`(0.001, infinity)`, so the model pre-applies that interval. -/
structure hittable where
  hit : ray → Option hit_record

/-- The path integrator `ray_color` (camera.h lines 190-211), with the
`int depth` argument modelled as `ℤ`:
```
if (depth <= 0) return color(0, 0, 0);
if (world.hit(r, interval(0.001, infinity), rec)) {
    if (rec.mat->scatter(r, rec, attenuation, scattered))
        return attenuation * ray_color(scattered, depth-1, world);
    return color(0,0,0);
}
vector3d unit_direction = unit_vector(r.direction());
double a = 0.5 * (unit_direction.y() + 1.0);
return (1.0 - a) * color(1.0, 1.0, 1.0) + a * color(0.5, 0.7, 1.0);
```
-/
def ray_color (world : hittable) (r : ray) (depth : ℤ) : Vec3 :=
  if h : depth ≤ 0 then ⟨0, 0, 0⟩
  else
    match world.hit r with
    | some rec =>
      match rec.scatter r with
      | some (attenuation, scattered) =>
        attenuation * ray_color world scattered (depth - 1)
      | none => ⟨0, 0, 0⟩
    | none =>
      let unit_direction := unit_vector r.direction
      let a := 0.5 * (unit_direction.y + 1.0)
      (1.0 - a) • (⟨1.0, 1.0, 1.0⟩ : Vec3) + a • (⟨0.5, 0.7, 1.0⟩ : Vec3)
termination_by depth.toNat
decreasing_by simp_wf; omega

/-- Number of nested recursive `ray_color` invocations below a call:
`0` in each of the three terminal branches, and one more than the
recursive count at budget `depth - 1` in the scatter branch.  Mirrors
the call structure of `ray_color` exactly. -/
def rayColorCalls (world : hittable) (r : ray) (depth : ℤ) : ℕ :=
  if h : depth ≤ 0 then 0
  else
    match world.hit r with
    | some rec =>
      match rec.scatter r with
      | some (_, scattered) => 1 + rayColorCalls world scattered (depth - 1)
      | none => 0
    | none => 0
termination_by depth.toNat
decreasing_by simp_wf; omega

/-- The no-hit background of `ray_color` as a function of the vertical
component of the normalized ray direction (camera.h lines 208-210). -/
def skyBlend (y : ℝ) : Vec3 :=
  let a := 0.5 * (y + 1.0)
  (1.0 - a) • (⟨1.0, 1.0, 1.0⟩ : Vec3) + a • (⟨0.5, 0.7, 1.0⟩ : Vec3)

/-- A scene with no intersectable objects. -/
def emptyWorld : hittable := ⟨fun _ => none⟩

/-! ## The camera class -/

/-- The `camera` class: private derived state followed by the public
configuration fields. -/
structure Camera where
  center : Vec3
  pixel00_loc : Vec3
  pixel_delta_u : Vec3
  pixel_delta_v : Vec3
  u : Vec3
  v : Vec3
  w : Vec3
  defocus_disk_u : Vec3
  defocus_disk_v : Vec3
  image : List Vec3
  render_progress : List ℤ
  image_width : ℤ
  image_height : ℤ
  samples_per_pixel : ℤ
  max_depth : ℤ
  vfov : ℝ
  lookfrom : Vec3
  lookat : Vec3
  vup : Vec3
  defocus_angle : ℝ
  focus_dist : ℝ
  max_threads : ℤ

/-- `degrees_to_radians` lives in `rtweekend.h`, outside `src/`.
Modelled from the spec: "vertical field of view (degrees)", so the
conversion is `degrees * pi / 180`. -/
def degrees_to_radians (degrees : ℝ) : ℝ := degrees * Real.pi / 180

/-- A camera with the default member initializers of the class
(camera.h lines 276-289); the derived private fields start out
value-initialized (zero). -/
def defaultCamera : Camera where
  center := ⟨0, 0, 0⟩
  pixel00_loc := ⟨0, 0, 0⟩
  pixel_delta_u := ⟨0, 0, 0⟩
  pixel_delta_v := ⟨0, 0, 0⟩
  u := ⟨0, 0, 0⟩
  v := ⟨0, 0, 0⟩
  w := ⟨0, 0, 0⟩
  defocus_disk_u := ⟨0, 0, 0⟩
  defocus_disk_v := ⟨0, 0, 0⟩
  image := []
  render_progress := []
  image_width := 1366
  image_height := 720
  samples_per_pixel := 10
  max_depth := 10
  vfov := 90
  lookfrom := ⟨0, 0, -1⟩
  lookat := ⟨0, 0, 0⟩
  vup := ⟨0, 1, 0⟩
  defocus_angle := 0
  focus_dist := 10
  max_threads := 1

/-- `camera::initialize` (camera.h lines 148-188), in source order.
`image.resize` followed by a full `std::fill` nets to a replicate of
black; `render_progress.resize(max_threads)` happens BEFORE the
`max_threads` coercion, which the model reproduces (`Int.toNat` sends
the nonpositive sizes of interest to `0`). -/
def initCamera (c : Camera) : Camera :=
  let center := c.lookfrom
  let theta := degrees_to_radians c.vfov
  let h := Real.tan (theta / 2)
  let viewport_height := 2.0 * h * c.focus_dist
  let viewport_width := viewport_height * ((c.image_width : ℝ) / (c.image_height : ℝ))
  let w := unit_vector (c.lookfrom - c.lookat)
  let u := unit_vector (cross c.vup w)
  let v := cross w u
  let viewport_u := viewport_width • u
  let viewport_v := viewport_height • (-v)
  let pixel_delta_u := viewport_u / (c.image_width : ℝ)
  let pixel_delta_v := viewport_v / (c.image_height : ℝ)
  let viewport_upper_left :=
    center - c.focus_dist • w - viewport_u / (2 : ℝ) - viewport_v / (2 : ℝ)
  let pixel00_loc := viewport_upper_left + (0.5 : ℝ) • (pixel_delta_u + pixel_delta_v)
  let defocus_radius := c.focus_dist * Real.tan (degrees_to_radians (c.defocus_angle / 2))
  { c with
    center := center
    pixel00_loc := pixel00_loc
    pixel_delta_u := pixel_delta_u
    pixel_delta_v := pixel_delta_v
    u := u
    v := v
    w := w
    defocus_disk_u := defocus_radius • u
    defocus_disk_v := defocus_radius • v
    image := List.replicate (c.image_height * c.image_width).toNat ⟨0, 0, 0⟩
    render_progress := List.replicate c.max_threads.toNat 0
    max_threads := if c.max_threads > 0 then c.max_threads else 1 }

/-! ## Ray generation -/

/-- `pixel_center = pixel00_loc + (i * pixel_delta_u) + (j * pixel_delta_v)`
from `get_ray`. -/
def pixel_center (c : Camera) (i j : ℤ) : Vec3 :=
  c.pixel00_loc + (i : ℝ) • c.pixel_delta_u + (j : ℝ) • c.pixel_delta_v

/-- `pixel_sample_square` (camera.h lines 231-235) with the two
`random_double()` draws `ru, rv` passed in:
`(0.5 + ru) * pixel_delta_u + (0.5 + rv) * pixel_delta_v`. -/
def pixel_sample_square (c : Camera) (ru rv : ℝ) : Vec3 :=
  (0.5 + ru) • c.pixel_delta_u + (0.5 + rv) • c.pixel_delta_v

/-- The point sampled by `get_ray` for pixel `(i, j)`:
`pixel_sample = pixel_center + pixel_sample_square()`. -/
def pixel_sample (c : Camera) (i j : ℤ) (ru rv : ℝ) : Vec3 :=
  pixel_center c i j + pixel_sample_square c ru rv

/-- `defocus_disk_sample` with the sampled unit-disk point `(p0, p1)`
passed in: `center + p[0] * defocus_disk_u + p[1] * defocus_disk_v`. -/
def defocus_disk_sample (c : Camera) (p0 p1 : ℝ) : Vec3 :=
  c.center + p0 • c.defocus_disk_u + p1 • c.defocus_disk_v

/-- `get_ray` (camera.h lines 215-223) with the jitter draws and the
disk draws passed in. -/
def get_ray (c : Camera) (i j : ℤ) (ru rv : ℝ) (p0 p1 : ℝ) : ray :=
  let sample := pixel_sample c i j ru rv
  let ray_origin := if c.defocus_angle ≤ 0 then c.center else defocus_disk_sample c p0 p1
  ⟨ray_origin, sample - ray_origin⟩

/-- The world-space top-left corner of pixel `(i, j)`'s square
footprint: `viewport_upper_left + i * pixel_delta_u + j * pixel_delta_v`.
By `initialize`, `pixel00_loc = viewport_upper_left +
0.5 * (pixel_delta_u + pixel_delta_v)`, so the corner is `pixel00_loc -
0.5 * pixel_delta_u - 0.5 * pixel_delta_v + i * pixel_delta_u +
j * pixel_delta_v`. -/
def pixel_top_left (c : Camera) (i j : ℤ) : Vec3 :=
  c.pixel00_loc - (0.5 : ℝ) • c.pixel_delta_u - (0.5 : ℝ) • c.pixel_delta_v +
    (i : ℝ) • c.pixel_delta_u + (j : ℝ) • c.pixel_delta_v

/-- Membership in pixel `(i, j)`'s square footprint: the footprint is
the pixel-delta parallelogram spanned from the pixel's top-left
corner. -/
def inFootprint (c : Camera) (i j : ℤ) (pt : Vec3) : Prop :=
  ∃ s t : ℝ, 0 ≤ s ∧ s < 1 ∧ 0 ≤ t ∧ t < 1 ∧
    pt = pixel_top_left c i j + s • c.pixel_delta_u + t • c.pixel_delta_v

/-! ## The multithreaded render pipeline -/

/-- Per-pixel, per-sample random draws: for pixel `(i, j)` and sample
index `s`, the two `random_double()` jitter draws and the two unit-disk
coordinates consumed by `get_ray`.  The random source is external to
`camera.h`; passing it as an oracle makes the pipeline a function of
it. -/
def RandomSource : Type := ℤ → ℤ → ℤ → (ℝ × ℝ) × (ℝ × ℝ)

/-- One sample of pixel `(i, j)`:
`ray_color(get_ray(i, j), max_depth, world)`. -/
def samplePixel (c : Camera) (world : hittable) (rng : RandomSource) (i j s : ℤ) : Vec3 :=
  let d := rng i j s
  ray_color world (get_ray c i j d.1.1 d.1.2 d.2.1 d.2.2) c.max_depth

/-- The sample loop of `render_thread` for one pixel:
`for (sample = 0; sample < samples_per_pixel; sample++)
  image[j * image_width + i] += ray_color(get_ray(i, j), max_depth, world);`. -/
def renderPixel (c : Camera) (world : hittable) (rng : RandomSource) (i j : ℤ)
    (img : List Vec3) : List Vec3 :=
  (List.range c.samples_per_pixel.toNat).foldl
    (fun im s =>
      im.set (j * c.image_width + i).toNat
        (im.getD (j * c.image_width + i).toNat ⟨0, 0, 0⟩ +
          samplePixel c world rng i j (s : ℤ)))
    img

/-- One row of `render_thread`: the column loop followed by
`render_progress[threadId] += 1`. -/
def renderRow (c : Camera) (world : hittable) (rng : RandomSource) (threadId j : ℤ)
    (st : List Vec3 × List ℤ) : List Vec3 × List ℤ :=
  let img := (List.range c.image_width.toNat).foldl
    (fun im i => renderPixel c world rng (i : ℤ) j im) st.1
  (img, st.2.set threadId.toNat (st.2.getD threadId.toNat 0 + 1))

/-- `render_thread(world, threadId, minRow, maxRow)` (camera.h lines
237-248), acting on the camera's `image` and `render_progress`. -/
def render_thread (c : Camera) (world : hittable) (rng : RandomSource)
    (threadId minR maxR : ℤ) : Camera :=
  let st := (List.range (maxR - minR).toNat).foldl
    (fun st jo => renderRow c world rng threadId (minR + (jo : ℤ)) st)
    (c.image, c.render_progress)
  { c with image := st.1, render_progress := st.2 }

/-- `camera::render` (camera.h lines 291-319): `initialize`, then one
worker per thread index over that worker's row range.  Workers write
pairwise disjoint framebuffer slots and distinct progress slots, so the
sequential composition in thread-index order is the unique final state
of the concurrent execution. -/
def render (c : Camera) (world : hittable) (rng : RandomSource) : Camera :=
  let c1 := initCamera c
  (List.range c1.max_threads.toNat).foldl
    (fun cc i =>
      render_thread cc world rng (i : ℤ)
        (minRow c1.image_height c1.max_threads (i : ℤ))
        (maxRow c1.image_height c1.max_threads (i : ℤ)))
    c1

/-- The configuration (public) fields of two cameras agree. -/
def configEq (c c' : Camera) : Prop :=
  c.image_width = c'.image_width ∧ c.image_height = c'.image_height ∧
  c.samples_per_pixel = c'.samples_per_pixel ∧ c.max_depth = c'.max_depth ∧
  c.vfov = c'.vfov ∧ c.lookfrom = c'.lookfrom ∧ c.lookat = c'.lookat ∧
  c.vup = c'.vup ∧ c.defocus_angle = c'.defocus_angle ∧
  c.focus_dist = c'.focus_dist ∧ c.max_threads = c'.max_threads

/-! ## Progress monitoring (`print_render_progress`) -/

/-- The polled sum of the per-worker progress counters
(`for (int& n : render_progress) rawProgress += n;`). -/
def progressSum (progress : List ℤ) : ℤ := progress.sum

/-- `percent = (int)((double)(rawProgress) / image_height * 100)`; the
C++ cast truncates toward zero, which on the nonnegative values polled
is the floor. -/
def monitorPercent (s H : ℤ) : ℤ := ⌊(s : ℝ) / (H : ℝ) * 100⌋

/-- The `while (percent < 100)` loop keeps polling iff this holds for
the freshly computed percent. -/
def monitorContinues (s H : ℤ) : Prop := monitorPercent s H < 100

/-- The effect of `print_render_progress` on the shared
`render_progress` vector: after the polling loop exits the function
runs `std::fill(render_progress.begin(), render_progress.end(), 0)`. -/
def print_render_progress_effect (progress : List ℤ) : List ℤ :=
  List.replicate progress.length 0

/-! ## Concrete instances used by counterexamples and witnesses -/

/-- A camera whose viewport geometry has unit pixel deltas: pixel
`(0,0)` is centered at the origin, columns step `+x`, rows step `-y`. -/
def camJitter : Camera :=
  { defaultCamera with
    pixel00_loc := ⟨0, 0, 0⟩
    pixel_delta_u := ⟨1, 0, 0⟩
    pixel_delta_v := ⟨0, -1, 0⟩ }

/-- The degenerate configuration of C6: eye equal to look-at
(`lookat` already defaults to the origin). -/
def camDegenerate : Camera := { defaultCamera with lookfrom := ⟨0, 0, 0⟩ }

/-- The configuration of C7: a nonpositive thread count. -/
def camZeroThreads : Camera := { defaultCamera with max_threads := 0 }

/-- A 1x1 camera carrying leftover state from a previous render. -/
def camDirtyA : Camera :=
  { defaultCamera with
    image_width := 1
    image_height := 1
    samples_per_pixel := 0
    image := [⟨5, 5, 5⟩]
    render_progress := [7] }

/-- Same configuration as `camDirtyA`, different leftover state. -/
def camDirtyB : Camera :=
  { defaultCamera with
    image_width := 1
    image_height := 1
    samples_per_pixel := 0
    center := ⟨9, 9, 9⟩ }

/-- A stub random source returning 0 for every draw. -/
def constRng : RandomSource := fun _ _ _ => ((0, 0), (0, 0))

end

/-! ## Theorems: the row partition (C1) -/

/-- On nonnegative operands the C++ truncating division agrees with
Lean's Euclidean `/`. -/
theorem cppDiv_eq_ediv {a b : ℤ} (ha : 0 ≤ a) (hb : 0 ≤ b) :
    cppDiv a b = a / b := Int.tdiv_eq_ediv ha hb

theorem rowOffset_nonneg {H T : ℤ} (hH : 1 ≤ H) (hT : 1 ≤ T) :
    0 ≤ rowOffset H T := by
  rw [rowOffset, cppDiv_eq_ediv (by omega) (by omega)]
  exact Int.ediv_nonneg (by omega) (by omega)

/-- The last worker's range starts no later than `H`. -/
theorem lastMin_le {H T : ℤ} (hH : 1 ≤ H) (hT : 1 ≤ T) :
    (T - 1) * rowOffset H T ≤ H := by
  have hoff : rowOffset H T = H / T := cppDiv_eq_ediv (by omega) (by omega)
  have h1 : H / T * T ≤ H := Int.ediv_mul_le H (by omega)
  have h2 : 0 ≤ H / T := Int.ediv_nonneg (by omega) (by omega)
  nlinarith [h1, h2]

/-- Ranges are ordered: worker `i`'s range ends no later than worker
`i'`'s range begins, whenever `i < i' < T`. -/
theorem maxRow_le_minRow {H T i i' : ℤ} (hH : 1 ≤ H) (hT : 1 ≤ T)
    (hii : i < i') (hi' : i' < T) :
    maxRow H T i ≤ minRow H T i' := by
  have hoff : 0 ≤ rowOffset H T := rowOffset_nonneg hH hT
  unfold maxRow minRow
  have hi : i < T - 1 := by omega
  simp only [hi, if_pos]
  nlinarith [hoff]

/-- Existence: every row `0 ≤ j < H` lies in some worker's range. -/
theorem exists_owner {H T : ℤ} (hH : 1 ≤ H) (hT : 1 ≤ T)
    {j : ℤ} (hj0 : 0 ≤ j) (hjH : j < H) :
    ∃ i, 0 ≤ i ∧ i < T ∧ ownsRow H T i j := by
  have hoff : rowOffset H T = H / T := cppDiv_eq_ediv (by omega) (by omega)
  have hoffnn : 0 ≤ rowOffset H T := rowOffset_nonneg hH hT
  by_cases hlast : (T - 1) * rowOffset H T ≤ j
  · -- the last worker owns the row
    refine ⟨T - 1, by omega, by omega, hlast, ?_⟩
    unfold maxRow
    simp only [lt_irrefl, if_neg (lt_irrefl (T - 1))]
    exact hjH
  · -- some earlier worker: i = j / offset
    push_neg at hlast
    have hpos : 0 < rowOffset H T := by
      rcases lt_or_eq_of_le hoffnn with h | h
      · exact h
      · exfalso; rw [← h] at hlast; simp at hlast; omega
    refine ⟨j / rowOffset H T, Int.ediv_nonneg hj0 (le_of_lt hpos), ?_, ?_, ?_⟩
    · -- j / offset < T - 1 ≤ T
      have : j / rowOffset H T < T - 1 := by
        rw [Int.ediv_lt_iff_lt_mul hpos]
        linarith [hlast]
      omega
    · -- minRow ≤ j
      unfold minRow
      exact Int.ediv_mul_le j hpos.ne'
    · -- j < maxRow
      have hlt : j / rowOffset H T < T - 1 := by
        rw [Int.ediv_lt_iff_lt_mul hpos]
        linarith [hlast]
      unfold maxRow minRow
      simp only [hlt, if_pos]
      have := Int.lt_ediv_add_one_mul_self j hpos
      nlinarith [this]

/-- Uniqueness: two distinct workers never own the same row. -/
theorem owner_unique {H T i i' j : ℤ} (hH : 1 ≤ H) (hT : 1 ≤ T)
    (hi : 0 ≤ i ∧ i < T) (hi' : 0 ≤ i' ∧ i' < T)
    (ho : ownsRow H T i j) (ho' : ownsRow H T i' j) : i = i' := by
  by_contra hne
  rcases lt_or_gt_of_ne hne with h | h
  · have := maxRow_le_minRow hH hT h hi'.2
    have := ho.2; have := ho'.1; omega
  · have := maxRow_le_minRow hH hT h hi.2
    have := ho'.2; have := ho.1; omega

/-- Euclidean decomposition of a slot index: `writesSlot` holds exactly
when the worker owns the slot's row `p / W`. -/
theorem writesSlot_iff_ownsRow {W H T i p : ℤ} (hW : 1 ≤ W) (hp : 0 ≤ p) :
    writesSlot W H T i p ↔ ownsRow H T i (p / W) := by
  constructor
  · rintro ⟨j, c, hown, hc0, hcW, rfl⟩
    have : (j * W + c) / W = j := by
      rw [add_comm, Int.add_mul_ediv_right c j (by omega : W ≠ 0)]
      rw [Int.ediv_eq_zero_of_lt hc0 hcW]
      omega
    rwa [this]
  · intro hown
    refine ⟨p / W, p % W, hown, Int.emod_nonneg p (by omega),
      Int.emod_lt_of_pos p (by omega), ?_⟩
    have h1 := Int.ediv_add_emod p W
    have h2 : W * (p / W) = p / W * W := mul_comm _ _
    omega

/-- C1: for every camera configuration with `image_height ≥ 1` and
thread count `T ≥ 1`, the row ranges handed to the `T` workers by
`render` are contiguous (`maxRow i = minRow (i+1)`), and every row in
`[0, image_height)` — hence every framebuffer slot in
`[0, W * image_height)` — belongs to exactly one worker, so each pixel
is written by exactly one worker and no two workers ever write the same
slot. -/
theorem C1_row_partition (W H T : ℤ) (hW : 1 ≤ W) (hH : 1 ≤ H) (hT : 1 ≤ T) :
    (∀ i, 0 ≤ i → i < T - 1 → maxRow H T i = minRow H T (i + 1)) ∧
    (∀ j, 0 ≤ j → j < H → ∃! i, (0 ≤ i ∧ i < T) ∧ ownsRow H T i j) ∧
    (∀ p, 0 ≤ p → p < W * H → ∃! i, (0 ≤ i ∧ i < T) ∧ writesSlot W H T i p) := by
  refine ⟨?_, ?_, ?_⟩
  · intro i _ hi
    unfold maxRow minRow
    simp only [hi, if_pos]
    ring
  · intro j hj0 hjH
    obtain ⟨i, hi0, hiT, hown⟩ := exists_owner hH hT hj0 hjH
    exact ⟨i, ⟨⟨hi0, hiT⟩, hown⟩, fun i' ⟨hi', hown'⟩ =>
      owner_unique hH hT hi' ⟨hi0, hiT⟩ hown' hown⟩
  · intro p hp0 hpWH
    have hjH : p / W < H := by
      rw [Int.ediv_lt_iff_lt_mul (by omega)]
      linarith [hpWH]
    have hj0 : 0 ≤ p / W := Int.ediv_nonneg hp0 (by omega)
    obtain ⟨i, hi0, hiT, hown⟩ := exists_owner hH hT hj0 hjH
    refine ⟨i, ⟨⟨hi0, hiT⟩, (writesSlot_iff_ownsRow hW hp0).mpr hown⟩, ?_⟩
    rintro i' ⟨hi', hw'⟩
    exact owner_unique hH hT hi' ⟨hi0, hiT⟩
      ((writesSlot_iff_ownsRow hW hp0).mp hw') hown

/-- Witness for C1 at `W = 3`, `H = 5`, `T = 2`. -/
theorem C1_row_partition_witness :
    (1 ≤ (3 : ℤ) ∧ 1 ≤ (5 : ℤ) ∧ 1 ≤ (2 : ℤ)) ∧
    ((∀ i, 0 ≤ i → i < (2 : ℤ) - 1 → maxRow 5 2 i = minRow 5 2 (i + 1)) ∧
     (∀ j, 0 ≤ j → j < (5 : ℤ) → ∃! i, (0 ≤ i ∧ i < 2) ∧ ownsRow 5 2 i j) ∧
     (∀ p, 0 ≤ p → p < (3 : ℤ) * 5 → ∃! i, (0 ≤ i ∧ i < 2) ∧ writesSlot 3 5 2 i p)) :=
  ⟨⟨by norm_num, by norm_num, by norm_num⟩,
   C1_row_partition 3 5 2 (by norm_num) (by norm_num) (by norm_num)⟩

/-! ## Theorems: the bitmap file-size field (C9) -/

/-- C9: the 4-byte little-endian file-size field decodes to exactly
`54 + 3 * image_width * image_height` (absent `int` overflow), and the
per-row padding bytes are omitted from this count: the bytes actually
written exceed the field by `image_height * rowPad image_width`. -/
theorem C9_file_size_field (W H : ℤ) (hW : 0 ≤ W) (hH : 0 ≤ H)
    (hov : 54 + 3 * W * H < 2 ^ 31) :
    decodedFileSize W H = 54 + 3 * W * H ∧
    bytesWritten W H = decodedFileSize W H + H * rowPad W := by
  have hfs0 : 0 ≤ file_size W H := by unfold file_size; positivity
  have hfs : file_size W H < 2 ^ 31 := hov
  have hdec : decodedFileSize W H = file_size W H := by
    unfold decodedFileSize headerSizeBytes toByte shr
    set fs := file_size W H with hfsdef
    norm_num
    omega
  refine ⟨by rw [hdec]; rfl, ?_⟩
  rw [hdec]
  unfold bytesWritten file_size
  ring

/-- Witness for C9 at `W = 2`, `H = 2` (`file_size = 66`,
row padding = 2 bytes per row). -/
theorem C9_file_size_field_witness :
    (0 ≤ (2 : ℤ) ∧ 0 ≤ (2 : ℤ) ∧ 54 + 3 * (2 : ℤ) * 2 < 2 ^ 31) ∧
    (decodedFileSize 2 2 = 54 + 3 * 2 * 2 ∧
     bytesWritten 2 2 = decodedFileSize 2 2 + 2 * rowPad 2) :=
  ⟨⟨by norm_num, by norm_num, by norm_num⟩,
   C9_file_size_field 2 2 (by norm_num) (by norm_num) (by norm_num)⟩

/-! ## Componentwise lemmas for the vector model -/

theorem Vec3.add_x (a b : Vec3) : (a + b).x = a.x + b.x := rfl

theorem Vec3.add_y (a b : Vec3) : (a + b).y = a.y + b.y := rfl

theorem Vec3.add_z (a b : Vec3) : (a + b).z = a.z + b.z := rfl

theorem Vec3.sub_x (a b : Vec3) : (a - b).x = a.x - b.x := rfl

theorem Vec3.sub_y (a b : Vec3) : (a - b).y = a.y - b.y := rfl

theorem Vec3.sub_z (a b : Vec3) : (a - b).z = a.z - b.z := rfl

theorem Vec3.smul_x (s : ℝ) (a : Vec3) : (s • a).x = s * a.x := rfl

theorem Vec3.smul_y (s : ℝ) (a : Vec3) : (s • a).y = s * a.y := rfl

theorem Vec3.smul_z (s : ℝ) (a : Vec3) : (s • a).z = s * a.z := rfl

theorem Vec3.div_x (a : Vec3) (s : ℝ) : (a / s).x = a.x / s := rfl

theorem Vec3.div_y (a : Vec3) (s : ℝ) : (a / s).y = a.y / s := rfl

theorem Vec3.div_z (a : Vec3) (s : ℝ) : (a / s).z = a.z / s := rfl

attribute [simp] Vec3.add_x Vec3.add_y Vec3.add_z Vec3.sub_x Vec3.sub_y
  Vec3.sub_z Vec3.smul_x Vec3.smul_y Vec3.smul_z Vec3.div_x Vec3.div_y
  Vec3.div_z

/-- Two vectors with equal components are equal. -/
theorem Vec3.ext {a b : Vec3} (hx : a.x = b.x) (hy : a.y = b.y)
    (hz : a.z = b.z) : a = b := by
  cases a
  cases b
  simp only at hx hy hz
  rw [hx, hy, hz]

/-! ## Theorems: the path integrator (C2, C3, C5) -/

/-- C2: for every scene, every ray and every remaining-bounce budget
`depth ≤ 0`, `ray_color` returns black, independent of scene content
and of the ray. -/
theorem C2_depth_exhausted_black (world : hittable) (r : ray) (d : ℤ)
    (hd : d ≤ 0) : ray_color world r d = ⟨0, 0, 0⟩ := by
  rw [ray_color]
  simp [hd]

/-- Witness for C2: the empty scene, a ray along `+z`, budget `0`. -/
theorem C2_depth_exhausted_black_witness :
    (0 : ℤ) ≤ 0 ∧ ray_color emptyWorld ⟨⟨0, 0, 0⟩, ⟨0, 0, 1⟩⟩ 0 = ⟨0, 0, 0⟩ :=
  ⟨le_refl 0, C2_depth_exhausted_black emptyWorld ⟨⟨0, 0, 0⟩, ⟨0, 0, 1⟩⟩ 0 (le_refl 0)⟩

/-- C3: for every ray that intersects nothing (with `depth > 0`),
`ray_color` returns `(1-a)*(1,1,1) + a*(0.5,0.7,1.0)` with
`a = 0.5 * (y + 1)`, `y` the vertical component of the normalized ray
direction — `skyBlend` is by definition a function of that component
alone, so the result depends solely on it. -/
theorem C3_background_blend (world : hittable) (r : ray) (d : ℤ)
    (hd : 0 < d) (hmiss : world.hit r = none) :
    ray_color world r d = skyBlend (unit_vector r.direction).y := by
  rw [ray_color]
  have hnle : ¬ d ≤ 0 := by omega
  simp [hnle, hmiss, skyBlend]

/-- Witness for C3: the empty scene, a ray along `+z`, budget `1`. -/
theorem C3_background_blend_witness :
    (0 : ℤ) < 1 ∧ emptyWorld.hit ⟨⟨0, 0, 0⟩, ⟨0, 0, 1⟩⟩ = none ∧
    ray_color emptyWorld ⟨⟨0, 0, 0⟩, ⟨0, 0, 1⟩⟩ 1 =
      skyBlend (unit_vector (⟨⟨0, 0, 0⟩, ⟨0, 0, 1⟩⟩ : ray).direction).y :=
  ⟨by norm_num, rfl,
   C3_background_blend emptyWorld ⟨⟨0, 0, 0⟩, ⟨0, 0, 1⟩⟩ 1 (by norm_num) rfl⟩

/-- The recursion count of `ray_color` is bounded by `n` whenever the
budget's clamp-to-zero is at most `n`. -/
theorem rayColorCalls_le_aux (world : hittable) :
    ∀ n : ℕ, ∀ d : ℤ, d.toNat ≤ n → ∀ r, rayColorCalls world r d ≤ d.toNat := by
  intro n
  induction n with
  | zero =>
    intro d hd r
    rw [rayColorCalls]
    have hle : d ≤ 0 := by omega
    simp [hle]
  | succ n ih =>
    intro d hd r
    rw [rayColorCalls]
    by_cases hle : d ≤ 0
    · simp [hle]
    · rw [dif_neg hle]
      cases hh : world.hit r with
      | none => simp
      | some rec =>
        cases hs : rec.scatter r with
        | none => simp [hs]
        | some pr =>
          obtain ⟨att, scattered⟩ := pr
          have hrec := ih (d - 1) (by omega) scattered
          simp only [hs]
          omega

/-- C5: `ray_color` terminates with recursion depth at most the initial
budget `d`, regardless of scene geometry: `rayColorCalls` mirrors
`ray_color`'s call tree (each recursive call made with budget `d - 1`,
the budget-exhausted branch returning without recursing), and its value
never exceeds `d` clamped to zero. -/
theorem C5_recursion_bounded (world : hittable) (r : ray) (d : ℤ) :
    rayColorCalls world r d ≤ d.toNat :=
  rayColorCalls_le_aux world d.toNat d (le_refl _) r

/-! ## Theorems: the jittered pixel sample (C4) -/

/-- Counterexample to C4 as stated: with unit pixel deltas, at pixel
`(0,0)` and jitter draws `u = v = 0`, the sampled point is NOT the
pixel's top-left corner plus `(0.5+u)·dU + (0.5+v)·dV` (that sum is the
pixel center, while the code offsets `(0.5+u)·dU + (0.5+v)·dV` from the
center), and the sampled point does NOT lie inside pixel `(0,0)`'s
square footprint. -/
theorem C4_counterexample :
    pixel_sample camJitter 0 0 0 0 ≠
      pixel_top_left camJitter 0 0 + ((0.5 : ℝ) + 0) • camJitter.pixel_delta_u +
        ((0.5 : ℝ) + 0) • camJitter.pixel_delta_v ∧
    ¬ inFootprint camJitter 0 0 (pixel_sample camJitter 0 0 0 0) := by
  constructor
  · intro heq
    have hx := congrArg Vec3.x heq
    simp [pixel_sample, pixel_center, pixel_sample_square, pixel_top_left,
      camJitter, defaultCamera] at hx
    norm_num at hx
  · rintro ⟨s, t, hs0, hs1, ht0, ht1, heq⟩
    have hx := congrArg Vec3.x heq
    simp [pixel_sample, pixel_center, pixel_sample_square, pixel_top_left,
      camJitter, defaultCamera] at hx
    linarith

/-- C4 as amended: for every camera state, pixel `(i, j)` and jitter
draws `u, v`, the point sampled by `get_ray` equals pixel `(i, j)`'s
nominal CENTER plus `(0.5+u)·dU + (0.5+v)·dV`, equivalently pixel
`(i+1, j+1)`'s top-left corner plus `u·dU + v·dV`; for `u, v ∈ [0, 1)`
it therefore lies inside pixel `(i+1, j+1)`'s square footprint. -/
theorem C4_sample_location (c : Camera) (i j : ℤ) (ru rv : ℝ)
    (hru0 : 0 ≤ ru) (hru1 : ru < 1) (hrv0 : 0 ≤ rv) (hrv1 : rv < 1) :
    pixel_sample c i j ru rv =
      pixel_center c i j + (0.5 + ru) • c.pixel_delta_u + (0.5 + rv) • c.pixel_delta_v ∧
    pixel_sample c i j ru rv =
      pixel_top_left c (i + 1) (j + 1) + ru • c.pixel_delta_u + rv • c.pixel_delta_v ∧
    inFootprint c (i + 1) (j + 1) (pixel_sample c i j ru rv) := by
  have hshift : pixel_sample c i j ru rv =
      pixel_top_left c (i + 1) (j + 1) + ru • c.pixel_delta_u + rv • c.pixel_delta_v := by
    apply Vec3.ext <;>
      simp [pixel_sample, pixel_center, pixel_sample_square, pixel_top_left] <;>
      ring
  refine ⟨?_, hshift, ru, rv, hru0, hru1, hrv0, hrv1, hshift⟩
  apply Vec3.ext <;>
    simp [pixel_sample, pixel_center, pixel_sample_square] <;> ring

/-- Witness for C4 as amended, at `camJitter`, pixel `(0,0)`,
`u = v = 0`. -/
theorem C4_sample_location_witness :
    ((0 : ℝ) ≤ 0 ∧ (0 : ℝ) < 1) ∧
    (pixel_sample camJitter 0 0 0 0 =
      pixel_center camJitter 0 0 + ((0.5 : ℝ) + 0) • camJitter.pixel_delta_u +
        ((0.5 : ℝ) + 0) • camJitter.pixel_delta_v ∧
     pixel_sample camJitter 0 0 0 0 =
      pixel_top_left camJitter (0 + 1) (0 + 1) + (0 : ℝ) • camJitter.pixel_delta_u +
        (0 : ℝ) • camJitter.pixel_delta_v ∧
     inFootprint camJitter (0 + 1) (0 + 1) (pixel_sample camJitter 0 0 0 0)) :=
  ⟨⟨le_refl 0, by norm_num⟩,
   C4_sample_location camJitter 0 0 0 0 (le_refl 0) (by norm_num) (le_refl 0) (by norm_num)⟩

/-! ## Theorems: degenerate camera configuration (C6) -/

/-- C6 demonstration (the code has NO configuration-error path): with
eye equal to look-at, the view direction has zero length, `initialize`
still runs to completion turning `w` into the zero vector (the model's
stand-in for the NaN vector the C++ code computes), and `render`'s
spawn loop still creates one worker — nothing is rejected before
workers are spawned. -/
theorem C6_no_rejection :
    (camDegenerate.lookfrom - camDegenerate.lookat).length = 0 ∧
    (initCamera camDegenerate).w = ⟨0, 0, 0⟩ ∧
    (List.range (initCamera camDegenerate).max_threads.toNat).length = 1 := by
  have hsub : camDegenerate.lookfrom - camDegenerate.lookat = ⟨0, 0, 0⟩ := by
    apply Vec3.ext <;> norm_num [camDegenerate, defaultCamera]
  have hw : (initCamera camDegenerate).w =
      unit_vector (camDegenerate.lookfrom - camDegenerate.lookat) := rfl
  have hmt : (initCamera camDegenerate).max_threads =
      if camDegenerate.max_threads > 0 then camDegenerate.max_threads else 1 := rfl
  refine ⟨?_, ?_, ?_⟩
  · rw [hsub]
    unfold Vec3.length
    norm_num
  · rw [hw, hsub]
    apply Vec3.ext <;> simp [unit_vector]
  · rw [hmt]
    norm_num [camDegenerate, defaultCamera]

/-! ## Theorems: progress-counter sizing (C7) -/

/-- C7 demonstration of the code bug: with `max_threads = 0`,
`initialize` resizes `render_progress` with the PRE-coercion thread
count — zero slots — and only then coerces `max_threads` to 1, so
`render` spawns worker 0 whose write `render_progress[0] += 1` is out
of the bounds of the progress vector (the write index 0 is not below
the vector's length). -/
theorem C7_progress_write_out_of_bounds :
    (initCamera camZeroThreads).max_threads = 1 ∧
    (initCamera camZeroThreads).render_progress.length = 0 ∧
    ¬ ((0 : ℕ) < (initCamera camZeroThreads).render_progress.length) := by
  have hmt : (initCamera camZeroThreads).max_threads =
      if camZeroThreads.max_threads > 0 then camZeroThreads.max_threads else 1 := rfl
  have hrp : (initCamera camZeroThreads).render_progress =
      List.replicate camZeroThreads.max_threads.toNat 0 := rfl
  have h0 : camZeroThreads.max_threads = 0 := rfl
  refine ⟨?_, ?_, ?_⟩
  · rw [hmt, h0]
    norm_num
  · rw [hrp, h0]
    rfl
  · rw [hrp, h0]
    simp

/-! ## Theorems: the progress-monitoring loop (C8) -/

/-- Counterexample to C8 as stated: `print_render_progress` does write
to shared render state — after its polling loop exits it zero-fills the
shared `render_progress` vector, so its effect on a progress vector
holding `[1]` is `[0]`, not the unchanged `[1]` that "performs no
writes" demands. -/
theorem C8_counterexample :
    print_render_progress_effect [1] ≠ [1] := by
  simp [print_render_progress_effect]

/-- C8 as amended: the monitoring WHILE-LOOP itself only reads the
counters — its guard, recomputed from the polled sum `s`, fails exactly
when `s` reaches `image_height` — but after the loop exits,
`print_render_progress` resets every per-worker progress counter to
zero, one write to the shared progress vector. -/
theorem C8_monitor_loop (H : ℤ) (progress : List ℤ) (hH : 1 ≤ H)
    (h0 : 0 ≤ progressSum progress) (hle : progressSum progress ≤ H) :
    (¬ monitorContinues (progressSum progress) H ↔ progressSum progress = H) ∧
    print_render_progress_effect progress = List.replicate progress.length 0 := by
  refine ⟨?_, rfl⟩
  have hHpos : (0 : ℝ) < (H : ℝ) := by exact_mod_cast (by omega : (0 : ℤ) < H)
  unfold monitorContinues monitorPercent
  rw [not_lt]
  constructor
  · intro hge
    by_contra hne
    have hslt : progressSum progress < H := lt_of_le_of_ne hle hne
    have hlt : ((progressSum progress : ℝ) / (H : ℝ) * 100) < 100 := by
      rw [div_mul_eq_mul_div, div_lt_iff hHpos]
      have hcast : (progressSum progress : ℝ) < (H : ℝ) := by exact_mod_cast hslt
      nlinarith
    have := Int.floor_lt.mpr (by exact_mod_cast hlt :
      (progressSum progress : ℝ) / (H : ℝ) * 100 < ((100 : ℤ) : ℝ))
    omega
  · intro heq
    rw [heq, div_self hHpos.ne', one_mul]
    norm_num

/-- Witness for C8 as amended: one worker, one row, sum of counters
equal to `image_height = 1`. -/
theorem C8_monitor_loop_witness :
    (1 ≤ (1 : ℤ) ∧ 0 ≤ progressSum [1] ∧ progressSum [1] ≤ 1) ∧
    ((¬ monitorContinues (progressSum [1]) 1 ↔ progressSum [1] = 1) ∧
     print_render_progress_effect [1] = List.replicate ([1] : List ℤ).length 0) :=
  ⟨⟨le_refl 1, by decide, by decide⟩,
   C8_monitor_loop 1 [1] (le_refl 1) (by decide) (by decide)⟩

/-! ## Theorems: render resets its accumulators (C10) -/

/-- `initialize` is determined by the configuration fields alone: all
derived state, the framebuffer and the progress counters are
overwritten from the configuration. -/
theorem initCamera_congr {c c' : Camera} (h : configEq c c') :
    initCamera c = initCamera c' := by
  obtain ⟨h1, h2, h3, h4, h5, h6, h7, h8, h9, h10, h11⟩ := h
  cases c
  cases c'
  dsimp only at h1 h2 h3 h4 h5 h6 h7 h8 h9 h10 h11
  subst h1 h2 h3 h4 h5 h6 h7 h8 h9 h10 h11
  rfl

/-- C10: every `render` call first (in `initialize`, before any worker
is spawned) resets every framebuffer accumulator to black and every
progress counter to 0, so the render outcome is a function of the
configuration, the scene and the random draws alone — two cameras with
equal configurations but arbitrary leftover state render to the very
same final state, never accumulating contributions from a previous
render call. -/
theorem C10_render_resets (c c' : Camera) (world : hittable) (rng : RandomSource)
    (h : configEq c c') :
    (initCamera c).image =
      List.replicate (c.image_height * c.image_width).toNat ⟨0, 0, 0⟩ ∧
    (initCamera c).render_progress = List.replicate c.max_threads.toNat 0 ∧
    render c world rng = render c' world rng := by
  refine ⟨rfl, rfl, ?_⟩
  unfold render
  rw [initCamera_congr h]

/-- Witness for C10: two 1x1 cameras with equal configurations but
different leftover framebuffers and progress counters. -/
theorem C10_render_resets_witness :
    configEq camDirtyA camDirtyB ∧
    ((initCamera camDirtyA).image =
       List.replicate (camDirtyA.image_height * camDirtyA.image_width).toNat ⟨0, 0, 0⟩ ∧
     (initCamera camDirtyA).render_progress =
       List.replicate camDirtyA.max_threads.toNat 0 ∧
     render camDirtyA emptyWorld constRng = render camDirtyB emptyWorld constRng) :=
  have hcfg : configEq camDirtyA camDirtyB :=
    ⟨rfl, rfl, rfl, rfl, rfl, rfl, rfl, rfl, rfl, rfl, rfl⟩
  ⟨hcfg, C10_render_resets camDirtyA camDirtyB emptyWorld constRng hcfg⟩

end Miniray
